import Mathlib

/-! Host program of the vector-sum accelerator demo.

Shallow embedding of `vector_sum/host/src/main.cpp`.

Modelling conventions.

* C++ `int` values are integers of `Int`; the source's `int` products are taken
  without overflow (signed overflow is undefined behaviour in C++).
* `float` is a type parameter `F` together with the three operations the host
  applies to it (`FloatOps`): `+`, `!=` and the conversion from `int`.  Nothing
  is assumed about them, in particular `!=` need not be irreflexive (NaN).
* A host pointer is modelled by the memory reachable from it: `h_data k` is the
  float `*(h_data + k)`.  Whether the pointer is non-null is a separate flag.
* What the process cannot decide itself (command line, results of the OpenCL
  runtime, of `malloc`, initial memory contents) is read from an `Env`.
* Wall-clock timing and the throughput lines printed from it are left out.
-/

namespace VectorSum

/-! ## The program -/

/-- The host's `float` operations main.cpp uses: `operator+`, `operator!=` and
the conversion of an `int`. -/
structure FloatOps (F : Type) where
  add : F → F → F
  ne : F → F → Bool
  ofInt : Int → F

/-- Calls to the OpenCL runtime (and the host frees of cleanup), as they are
logged in program order.  Device buffers (`cl_mem`) are named by a number,
`none` being the null handle; host blocks by the index of their malloc. -/
inductive DevOp where
  | createContext
  | createCommandQueue
  | buildProgram
  | createKernel
  | createBuffer (buf : Option Nat) (bytes : Int)
  | writeBuffer (buf : Option Nat) (bytes : Int) (hostOff : Int)
  | setKernelArg (idx : Nat)
  | enqueueTask
  | finish
  | readBuffer (buf : Option Nat) (bytes : Int) (hostOff : Int)
  | releaseKernel
  | releaseProgram
  | releaseCommandQueue
  | alignedFree (block : Nat)
  | releaseMemObject (buf : Nat)
  | releaseContext
  deriving DecidableEq, Repr

/-- Everything the run reads from outside the process. -/
structure Env (F : Type) where
  /-- Value of `--vec-len` when the option is present. -/
  vec_len : Option Int
  /-- Value of `--vec-num` when the option is present. -/
  vec_num : Option Int
  /-- Result of `setCwdToExeDir()`. -/
  setCwdOk : Bool
  /-- Whether `findPlatform` returns a non-null platform. -/
  platformFound : Bool
  /-- Status code delivered by the n-th status-returning runtime call
  (`0` is `CL_SUCCESS`). -/
  status : Nat → Int
  /-- Whether the n-th `malloc` returns a non-null pointer. -/
  mallocOk : Nat → Bool
  /-- Initial (indeterminate) contents of the block returned by the n-th `malloc`. -/
  heap : Nat → Int → F
  /-- Initial contents of device buffers, by handle. -/
  devMem : Nat → Int → F
  /-- Name returned by getBoardBinaryFile. -/
  binary_file : String

/-- The global variables of main.cpp plus the bookkeeping of the runtime model. -/
structure State (F : Type) where
  VEC_LEN : Int
  VEC_SIZE : Int
  VEC_NUM : Int
  platform : Bool
  context : Bool
  queue : Bool
  kernel : Bool
  program : Bool
  /-- Non-nullness of the three host pointers. -/
  h_data_set : Bool
  h_verify_set : Bool
  h_res_set : Bool
  /-- Byte sizes passed to the three malloc calls. -/
  h_data_bytes : Int
  h_verify_bytes : Int
  h_res_bytes : Int
  /-- Memory behind the three host pointers, by element offset. -/
  h_data : Int → F
  h_verify : Int → F
  h_res : Int → F
  d_dataA : Option Nat
  d_dataB : Option Nat
  d_res : Option Nat
  /-- Contents of device buffers, by handle and element index. -/
  devMem : Nat → Int → F
  /-- Device buffers created and not yet released. -/
  live : List Nat
  /-- Next unused buffer handle. -/
  fresh : Nat
  /-- Kernel arguments 0..3 as last set. -/
  arg0 : Option Nat
  arg1 : Option Nat
  arg2 : Option Nat
  arg3 : Int
  /-- Number of status-returning runtime calls made so far. -/
  calls : Nat
  /-- Number of `malloc` calls made so far. -/
  mallocs : Nat
  trace : List DevOp
  out : List String

/-- Size of a float in bytes, `sizeof(float)`. -/
def sizeofFloat : Int := 4

/-- State at program start: the static initialisers of main.cpp, null pointers
and handles everywhere. -/
def initial {F : Type} (env : Env F) : State F where
  VEC_LEN := 64
  VEC_SIZE := 64 * sizeofFloat
  VEC_NUM := 2
  platform := false
  context := false
  queue := false
  kernel := false
  program := false
  h_data_set := false
  h_verify_set := false
  h_res_set := false
  h_data_bytes := 0
  h_verify_bytes := 0
  h_res_bytes := 0
  h_data := env.heap 0
  h_verify := env.heap 1
  h_res := env.heap 2
  d_dataA := none
  d_dataB := none
  d_res := none
  devMem := env.devMem
  live := []
  fresh := 0
  arg0 := none
  arg1 := none
  arg2 := none
  arg3 := 0
  calls := 0
  mallocs := 0
  trace := []
  out := []

/-- How the process ends: `main` returns a value, or `checkError` terminates it. -/
inductive Outcome where
  | returned (code : Int)
  | aborted (status : Int)
  deriving DecidableEq, Repr

/-- Modelled from the spec: `checkError` (AOCLUtils, not under src/).  "Any
device-API failure aborts the run immediately with a reported error": a status
other than `CL_SUCCESS` terminates the process. -/
def checkError {F : Type} (status : Int) (s : State F) : Except (Int × State F) (State F) :=
  if status = 0 then .ok s else .error (status, s)

/-- A status-returning runtime call: log it, consume the next status. -/
def State.call {F : Type} (env : Env F) (s : State F) (op : DevOp) : Int × State F :=
  (env.status s.calls, { s with calls := s.calls + 1, trace := s.trace ++ [op] })

/-- A runtime call without a checked status: log it. -/
def State.log {F : Type} (s : State F) (op : DevOp) : State F :=
  { s with trace := s.trace ++ [op] }

/-- The loop `for (int i = lo; i < hi; i++) body`, for a body that leaves `i`
alone and cannot leave the loop early: the first argument is the number of
iterations left. -/
def forLoopAux {σ : Type} (body : Int → σ → σ) : Nat → Int → σ → σ
  | 0, _, s => s
  | n + 1, i, s => forLoopAux body n (i + 1) (body i s)

/-- The loop `for (int i = lo; i < hi; i++) body`: it makes `hi - lo` iterations,
none when `hi <= lo`. -/
def forLoop {σ : Type} (lo hi : Int) (body : Int → σ → σ) (s : σ) : σ :=
  forLoopAux body (hi - lo).toNat lo s

/-- The same loop for a body that may leave it early with a value of `ε`
(process termination, or a `return`). -/
def forLoopEAux {σ ε : Type} (body : Int → σ → Except ε σ) : Nat → Int → σ → Except ε σ
  | 0, _, s => .ok s
  | n + 1, i, s =>
    match body i s with
    | .ok s' => forLoopEAux body n (i + 1) s'
    | .error e => .error e

/-- The loop `for (int i = lo; i < hi; i++) body` with a body that may leave it
early. -/
def forLoopE {σ ε : Type} (lo hi : Int) (body : Int → σ → Except ε σ) (s : σ) : Except ε σ :=
  forLoopEAux body (hi - lo).toNat lo s

/-- Lines 82-92: option handling. `Options` (AOCLUtils) is read through `Env`. -/
def parseOptions {F : Type} (env : Env F) (s : State F) : State F :=
  let s :=
    match env.vec_len with
    | some v => { s with VEC_LEN := v, VEC_SIZE := v * sizeofFloat }
    | none => s
  match env.vec_num with
  | some v =>
    if v ≥ 2 then { s with VEC_NUM := v }
    else { s with out := s.out ++ ["Number of vectors must be greater than or equal to 2"] }
  | none => s

/-- Lines 213-261: `init()`.  The result is the returned `bool`. -/
def init {F : Type} (env : Env F) (s : State F) : Except (Int × State F) (Bool × State F) :=
  if !env.setCwdOk then .ok (false, s)
  else
    let s := { s with platform := env.platformFound }
    if !s.platform then
      .ok (false, { s with out := s.out ++ ["ERROR: Unable to find Intel(R) FPGA OpenCL platform"] })
    else do
      let (status, s) := s.call env .createContext
      let s ← checkError status { s with context := decide (status = 0) }
      let (status, s) := s.call env .createCommandQueue
      let s ← checkError status { s with queue := decide (status = 0) }
      let s := { s with out := s.out ++ ["Using AOCX: " ++ env.binary_file], program := true }
      let (status, s) := s.call env .buildProgram
      let s ← checkError status s
      let (status, s) := s.call env .createKernel
      let s ← checkError status { s with kernel := decide (status = 0) }
      pure (true, s)

/-- The call `malloc(...)`: whether the returned pointer is non-null. -/
def malloc {F : Type} (env : Env F) (s : State F) : Bool × State F :=
  (env.mallocOk s.mallocs, { s with mallocs := s.mallocs + 1 })

/-- The assignment `*(p + k) = v` on the memory `m` behind `p`. -/
def store {F : Type} (m : Int → F) (k : Int) (v : F) : Int → F :=
  fun p => if p = k then v else m p

/-- Lines 115-121: the initialisation loops. -/
def initInput {F : Type} (ops : FloatOps F) (s : State F) : State F :=
  forLoop 0 s.VEC_NUM (fun i s =>
    forLoop 0 s.VEC_LEN (fun j s =>
      let s := { s with h_data := store s.h_data (i * s.VEC_LEN + j) (ops.ofInt (s.VEC_LEN * i)) }
      { s with h_verify := store s.h_verify (i * s.VEC_LEN + j) (ops.ofInt (s.VEC_LEN * i)) }) s) s

/-- Number of floats in a transfer of `bytes` bytes. -/
def elems (bytes : Int) : Int := bytes / sizeofFloat

/-- The call `clCreateBuffer`: on success a fresh buffer becomes live, on failure the
null handle is returned. -/
def clCreateBuffer {F : Type} (env : Env F) (s : State F) (bytes : Int) :
    Option Nat × Int × State F :=
  let status := env.status s.calls
  if status = 0 then
    (some s.fresh, status,
      { s with calls := s.calls + 1, fresh := s.fresh + 1, live := s.live ++ [s.fresh],
               trace := s.trace ++ [.createBuffer (some s.fresh) bytes] })
  else
    (none, status, { s with calls := s.calls + 1, trace := s.trace ++ [.createBuffer none bytes] })

/-- Blocking `clEnqueueWriteBuffer` from the host address `src + off`: on
success the first `elems bytes` floats of the buffer are those of the host. -/
def clEnqueueWriteBuffer {F : Type} (env : Env F) (s : State F) (buf : Option Nat)
    (bytes : Int) (src : Int → F) (off : Int) : Int × State F :=
  let (status, s) := s.call env (.writeBuffer buf bytes off)
  match buf with
  | some b =>
    if status = 0 then
      (status, { s with devMem := fun h k =>
        if h = b ∧ 0 ≤ k ∧ k < elems bytes then src (off + k) else s.devMem h k })
    else (status, s)
  | none => (status, s)

/-- The call `clSetKernelArg` for the three buffer arguments (`idx` 0, 1, 2). -/
def clSetKernelArgMem {F : Type} (env : Env F) (s : State F) (idx : Nat) (v : Option Nat) :
    Int × State F :=
  let (status, s) := s.call env (.setKernelArg idx)
  if status = 0 then
    match idx with
    | 0 => (status, { s with arg0 := v })
    | 1 => (status, { s with arg1 := v })
    | 2 => (status, { s with arg2 := v })
    | _ => (status, s)
  else (status, s)

/-- The call `clSetKernelArg` for the `int` argument 3. -/
def clSetKernelArgInt {F : Type} (env : Env F) (s : State F) (v : Int) : Int × State F :=
  let (status, s) := s.call env (.setKernelArg 3)
  if status = 0 then (status, { s with arg3 := v }) else (status, s)

/-- Modelled from the spec: the device kernel `vector_sum` (device code, not
under src/).  "Result row must equal the element-wise sum of input rows": the
accelerator is an exact element-wise adder over the first `n` elements,
`out[k] = a[k] + b[k]`, the rest of `out` is left alone. -/
def vector_sum {F : Type} (ops : FloatOps F) (a b : Int → F) (n : Int) (out : Int → F) :
    Int → F :=
  fun k => if 0 ≤ k ∧ k < n then ops.add (a k) (b k) else out k

/-- The call `clEnqueueTask`: on success the kernel runs once on the arguments last set. -/
def clEnqueueTask {F : Type} (env : Env F) (ops : FloatOps F) (s : State F) : Int × State F :=
  let (status, s) := s.call env .enqueueTask
  if status = 0 then
    match s.arg0, s.arg1, s.arg2 with
    | some a, some b, some r =>
      let result := vector_sum ops (s.devMem a) (s.devMem b) s.arg3 (s.devMem r)
      (status, { s with devMem := fun h => if h = r then result else s.devMem h })
    | _, _, _ => (status, s)
  else (status, s)

/-- Blocking `clEnqueueReadBuffer` to the host address `h_res + off`. -/
def clEnqueueReadBuffer {F : Type} (env : Env F) (s : State F) (buf : Option Nat)
    (bytes : Int) (off : Int) : Int × State F :=
  let (status, s) := s.call env (.readBuffer buf bytes off)
  match buf with
  | some b =>
    if status = 0 then
      (status, { s with h_res := fun p =>
        if 0 ≤ p - off ∧ p - off < elems bytes then s.devMem b (p - off) else s.h_res p })
    else (status, s)
  | none => (status, s)

/-- Lines 129-171: the body of the compute loops for the counters `i` and `j`. -/
def loopBody {F : Type} (env : Env F) (ops : FloatOps F) (i j : Int) (s : State F) :
    Except (Int × State F) (State F) := do
  let (b, status, s) := clCreateBuffer env s s.VEC_SIZE
  let s ← checkError status { s with d_dataA := b }
  let (b, status, s) := clCreateBuffer env s s.VEC_SIZE
  let s ← checkError status { s with d_dataB := b }
  let (b, status, s) := clCreateBuffer env s s.VEC_SIZE
  let s ← checkError status { s with d_res := b }
  let (status, s) :=
    clEnqueueWriteBuffer env s s.d_dataA s.VEC_SIZE s.h_data ((i - 1) * s.VEC_LEN + j)
  let s ← checkError status s
  let (status, s) :=
    clEnqueueWriteBuffer env s s.d_dataB s.VEC_SIZE s.h_data (i * s.VEC_LEN + j)
  let s ← checkError status s
  let (status, s) := clSetKernelArgMem env s 0 s.d_dataA
  let s ← checkError status s
  let (status, s) := clSetKernelArgMem env s 1 s.d_dataB
  let s ← checkError status s
  let (status, s) := clSetKernelArgMem env s 2 s.d_res
  let s ← checkError status s
  let (status, s) := clSetKernelArgInt env s s.VEC_LEN
  let s ← checkError status s
  let (status, s) := clEnqueueTask env ops s
  let s ← checkError status s
  let (_, s) := s.call env .finish
  let (status, s) := s.call env .finish
  let s ← checkError status s
  let (status, s) := clEnqueueReadBuffer env s s.d_res s.VEC_SIZE ((i - 1) * s.VEC_LEN + j)
  checkError status s

/-- Lines 127-173: the compute loops. -/
def computeLoop {F : Type} (env : Env F) (ops : FloatOps F) (s : State F) :
    Except (Int × State F) (State F) :=
  forLoopE 1 s.VEC_NUM (fun i s =>
    forLoopE 0 s.VEC_LEN (fun j s => loopBody env ops i j s) s) s

/-- Lines 198-211: `vec_sum_gold`, the globals it reads passed as arguments.
Leaving a loop with `false` is the early `return false`. -/
def vec_sum_gold {F : Type} (ops : FloatOps F) (VEC_LEN VEC_NUM : Int) (a res : Int → F) : Bool :=
  match
    forLoopE 1 VEC_NUM (fun i _ =>
      forLoopE 0 VEC_LEN (fun j (_ : Unit) =>
        let gold_res := ops.add (a ((i - 1) * VEC_LEN + j)) (a (i * VEC_LEN + j))
        if ops.ne gold_res (res ((i - 1) * VEC_LEN + j)) then .error false else .ok ()) ()) ()
  with
  | .ok _ => true
  | .error b => b

/-- The call `clReleaseMemObject`: the buffer stops being live. -/
def clReleaseMemObject {F : Type} (s : State F) (b : Nat) : State F :=
  { s with live := s.live.erase b, trace := s.trace ++ [.releaseMemObject b] }

/-- The statement `if (handle) release(handle)` for a handle that is not a device
buffer. -/
def releaseIf {F : Type} (set : Bool) (op : DevOp) (s : State F) : State F :=
  if set then s.log op else s

/-- The statement `if (buf) clReleaseMemObject(buf)`. -/
def releaseBuffer {F : Type} (buf : Option Nat) (s : State F) : State F :=
  match buf with
  | some b => clReleaseMemObject s b
  | none => s

/-- Lines 264-285: `cleanup()`. -/
def cleanup {F : Type} (s : State F) : State F :=
  let s := releaseIf s.kernel .releaseKernel s
  let s := releaseIf s.program .releaseProgram s
  let s := releaseIf s.queue .releaseCommandQueue s
  let s := releaseIf s.h_verify_set (.alignedFree 1) s
  let s := releaseIf s.h_data_set (.alignedFree 0) s
  let s := releaseIf s.h_res_set (.alignedFree 2) s
  let s := releaseBuffer s.d_dataA s
  let s := releaseBuffer s.d_dataB s
  let s := releaseBuffer s.d_res s
  releaseIf s.context .releaseContext s

/-- Conversion of a `bool` to `int`, as in `return false;` from `int main`. -/
def boolToInt (b : Bool) : Int := if b then 1 else 0

/-- What a run leaves behind. -/
structure Result (F : Type) where
  outcome : Outcome
  final : State F

/-- Lines 103-106: the three host allocations. -/
def allocHost {F : Type} (env : Env F) (s : State F) : State F :=
  let bytes := s.VEC_SIZE * s.VEC_NUM * sizeofFloat
  let (ok, s) := malloc env s
  let s := { s with h_data_set := ok, h_data_bytes := bytes }
  let (ok, s) := malloc env s
  let s := { s with h_verify_set := ok, h_verify_bytes := bytes }
  let (ok, s) := malloc env s
  { s with h_res_set := ok, h_res_bytes := bytes }

/-- Lines 79-173: `main` up to the end of the compute loops; `some code` is an
early `return code`. -/
def mainCompute {F : Type} (ops : FloatOps F) (env : Env F) :
    Except (Int × State F) (Option Int × State F) := do
  let s := parseOptions env (initial env)
  let (ok, s) ← init env s
  if !ok then
    pure (some (boolToInt false), s)
  else
    let s := { s with out := s.out ++
      ["Vector length: " ++ toString s.VEC_LEN, "Vector size: " ++ toString s.VEC_SIZE,
       "Number of vectors: " ++ toString s.VEC_NUM] }
    let s := allocHost env s
    if !(s.h_data_set && s.h_verify_set && s.h_res_set) then
      pure (some (boolToInt false), { s with out := s.out ++ ["ERROR: Couldn't create host buffers"] })
    else
      let s := { s with out := s.out ++ ["Launching vector sum..."] }
      let s := initInput ops s
      let s ← computeLoop env ops s
      pure (none, s)

/-- Lines 79-193: `main`. -/
def main {F : Type} (ops : FloatOps F) (env : Env F) : Result F :=
  match mainCompute ops env with
  | .error (status, s) => ⟨.aborted status, s⟩
  | .ok (some code, s) => ⟨.returned code, s⟩
  | .ok (none, s) =>
    let verdict := if vec_sum_gold ops s.VEC_LEN s.VEC_NUM s.h_verify s.h_res then "PASSED" else "FAILED"
    let s := { s with out := s.out ++ ["Verifying data --> " ++ verdict] }
    let s := cleanup s
    ⟨.returned 0, s⟩

/-- A float stand-in that is exact on integers, for evaluating runs on small inputs. -/
def intOps : FloatOps Int where
  add := fun x y => x + y
  ne := fun x y => decide (x ≠ y)
  ofInt := fun n => n

/-- An environment in which every call succeeds and all memory starts as `garbage`. -/
def goodEnv (vec_len vec_num : Option Int) (garbage : Int) : Env Int where
  vec_len := vec_len
  vec_num := vec_num
  setCwdOk := true
  platformFound := true
  status := fun _ => 0
  mallocOk := fun _ => true
  heap := fun _ _ => garbage
  devMem := fun _ _ => garbage
  binary_file := "vector_sum.aocx"

/-- The runtime calls of one pass through the body of the compute loops, for
the counters `i` and `j`, when `h` is the first unused buffer handle. -/
def cycle (VEC_SIZE VEC_LEN : Int) (h : Nat) (i j : Int) : List DevOp :=
  [.createBuffer (some h) VEC_SIZE, .createBuffer (some (h + 1)) VEC_SIZE,
   .createBuffer (some (h + 2)) VEC_SIZE,
   .writeBuffer (some h) VEC_SIZE ((i - 1) * VEC_LEN + j),
   .writeBuffer (some (h + 1)) VEC_SIZE (i * VEC_LEN + j),
   .setKernelArg 0, .setKernelArg 1, .setKernelArg 2, .setKernelArg 3,
   .enqueueTask, .finish, .finish,
   .readBuffer (some (h + 2)) VEC_SIZE ((i - 1) * VEC_LEN + j)]

/-- The part of the state the compute loops leave alone. -/
def SameGlobals {F : Type} (s s' : State F) : Prop :=
  s'.VEC_LEN = s.VEC_LEN ∧ s'.VEC_SIZE = s.VEC_SIZE ∧ s'.VEC_NUM = s.VEC_NUM ∧
  s'.h_data = s.h_data ∧ s'.h_verify = s.h_verify ∧
  s'.platform = s.platform ∧ s'.context = s.context ∧ s'.queue = s.queue ∧
  s'.kernel = s.kernel ∧ s'.program = s.program ∧
  s'.h_data_set = s.h_data_set ∧ s'.h_verify_set = s.h_verify_set ∧ s'.h_res_set = s.h_res_set ∧
  s'.h_data_bytes = s.h_data_bytes ∧ s'.h_verify_bytes = s.h_verify_bytes ∧
  s'.h_res_bytes = s.h_res_bytes ∧ s'.mallocs = s.mallocs ∧ s'.out = s.out

/-- The runtime calls of the first `count` passes through the loop body: pass
number `k` (from 0) has the counters `i = k / VEC_LEN + 1`, `j = k % VEC_LEN`
and creates the buffers `h0 + 3 * k`, `h0 + 3 * k + 1`, `h0 + 3 * k + 2`. -/
def loopTrace (VEC_SIZE VEC_LEN : Int) (h0 : Nat) (count : Nat) : List DevOp :=
  (List.range count).flatMap (fun k =>
    cycle VEC_SIZE VEC_LEN (h0 + 3 * k) ((k : Int) / VEC_LEN + 1) ((k : Int) % VEC_LEN))

/-- State of the compute loops after `c` passes through the body, started in `s0`. -/
def LoopInv {F : Type} (ops : FloatOps F) (s0 : State F) (c : Nat) (s : State F) : Prop :=
  SameGlobals s0 s ∧
  (∀ p : Int, 0 ≤ p → p < c →
    s.h_res p = ops.add (s0.h_data p) (s0.h_data (p + s0.VEC_LEN))) ∧
  s.trace = s0.trace ++ loopTrace s0.VEC_SIZE s0.VEC_LEN s0.fresh c ∧
  s.live = s0.live ++ List.range' s0.fresh (3 * c) ∧
  s.fresh = s0.fresh + 3 * c ∧
  (0 < c → s.d_dataA = some (s0.fresh + 3 * c - 3) ∧ s.d_dataB = some (s0.fresh + 3 * c - 2) ∧
    s.d_res = some (s0.fresh + 3 * c - 1))

/-- State of the initialisation loops once the first `t` elements are written. -/
def InitInv {F : Type} (ops : FloatOps F) (s0 : State F) (t : Int) (s : State F) : Prop :=
  ∃ d v : Int → F, s = { s0 with h_data := d, h_verify := v } ∧
    (∀ p, d p = if 0 ≤ p ∧ p < t then ops.ofInt (s0.VEC_LEN * (p / s0.VEC_LEN)) else s0.h_data p) ∧
    (∀ p, v p = if 0 ≤ p ∧ p < t then ops.ofInt (s0.VEC_LEN * (p / s0.VEC_LEN))
      else s0.h_verify p)

/-- A run in which nothing outside the process fails. -/
def Env.Healthy {F : Type} (env : Env F) : Prop :=
  env.setCwdOk = true ∧ env.platformFound = true ∧ (∀ n, env.status n = 0) ∧
    (∀ n, env.mallocOk n = true)

/-- State of a healthy run when the initialisation loops are entered. -/
def ready {F : Type} (env : Env F) : State F :=
  let s := parseOptions env (initial env)
  { s with
    platform := true, context := true, queue := true, program := true, kernel := true,
    h_data_set := true, h_verify_set := true, h_res_set := true,
    h_data_bytes := s.VEC_SIZE * s.VEC_NUM * sizeofFloat,
    h_verify_bytes := s.VEC_SIZE * s.VEC_NUM * sizeofFloat,
    h_res_bytes := s.VEC_SIZE * s.VEC_NUM * sizeofFloat,
    calls := s.calls + 4, mallocs := s.mallocs + 3,
    trace := s.trace ++ [.createContext, .createCommandQueue, .buildProgram, .createKernel],
    out := s.out ++ ["Using AOCX: " ++ env.binary_file, "Vector length: " ++ toString s.VEC_LEN,
      "Vector size: " ++ toString s.VEC_SIZE, "Number of vectors: " ++ toString s.VEC_NUM,
      "Launching vector sum..."] }

/-- Row `p / 4` of the fixture for VEC_LEN = 4 holds `4 * (p / 4)`. -/
def fixture4 : Int → Int := fun p => 4 * (p / 4)

/-- The sums of adjacent rows of `fixture4`. -/
def sums4 : Int → Int := fun p => fixture4 p + fixture4 (p + 4)

/-- The sums of `sums4` with the last compared element off by one. -/
def sums4_off : Int → Int := fun p => if p = 7 then 13 else sums4 p

/-- A float stand-in on which `!=` always holds (every value behaves like NaN). -/
def nanOps : FloatOps Int where
  add := fun x y => x + y
  ne := fun _ _ => true
  ofInt := fun n => n

/-- The run on `--vec-len 2 --vec-num 2` with every call succeeding. -/
def smallRun : Result Int := main intOps (goodEnv (some 2) (some 2) 0)

/-- Whether the host window of a transfer lies inside the allocation it
addresses, `h_data` for a write to the device and `h_res` for a read from it:
it starts at or after the pointer and ends at or before the last allocated
byte.  Offsets count floats, sizes bytes. -/
def inAllocation {F : Type} (s : State F) : DevOp → Bool
  | .writeBuffer _ bytes off => decide (0 ≤ off ∧ off * sizeofFloat + bytes ≤ s.h_data_bytes)
  | .readBuffer _ bytes off => decide (0 ≤ off ∧ off * sizeofFloat + bytes ≤ s.h_res_bytes)
  | _ => true

/-- The run with the default sizes (VEC_LEN = 64, VEC_NUM = 2) and every call
succeeding. -/
def defaultRun : Result Int := main intOps (goodEnv none none 0)

/-! ## Properties -/

theorem forLoopAux_inv {σ : Type} (body : Int → σ → σ) (P : Int → σ → Prop) :
    ∀ (n : Nat) (i : Int) (s : σ),
      (∀ k t, i ≤ k → k < i + n → P k t → P (k + 1) (body k t)) →
      P i s → P (i + n) (forLoopAux body n i s) := by
  intro n
  induction n with
  | zero => intro i s _ h; simpa [forLoopAux] using h
  | succ n ih =>
    intro i s hstep h
    have h1 : P (i + 1) (body i s) := hstep i s (le_refl _) (by push_cast; omega) h
    have h2 := ih (i + 1) (body i s)
      (fun k t hk hk' => hstep k t (by omega) (by push_cast; omega)) h1
    have e : i + ((n + 1 : Nat) : Int) = i + 1 + (n : Int) := by push_cast; ring
    rw [e]
    simpa [forLoopAux] using h2

theorem forLoop_inv {σ : Type} (body : Int → σ → σ) (P : Int → σ → Prop) (lo hi : Int) (s : σ)
    (hle : lo ≤ hi) (hstep : ∀ k t, lo ≤ k → k < hi → P k t → P (k + 1) (body k t))
    (h : P lo s) : P hi (forLoop lo hi body s) := by
  have e : lo + ((hi - lo).toNat : Int) = hi := by
    rw [Int.toNat_of_nonneg (by omega)]; ring
  have := forLoopAux_inv body P (hi - lo).toNat lo s
    (fun k t hk hk' => hstep k t hk (by omega)) h
  rw [e] at this
  exact this

theorem forLoopEAux_inv {σ ε : Type} (body : Int → σ → Except ε σ) (P : Int → σ → Prop) :
    ∀ (n : Nat) (i : Int) (s : σ),
      (∀ k t, i ≤ k → k < i + n → P k t → ∃ t', body k t = .ok t' ∧ P (k + 1) t') →
      P i s → ∃ s', forLoopEAux body n i s = .ok s' ∧ P (i + n) s' := by
  intro n
  induction n with
  | zero => intro i s _ h; exact ⟨s, rfl, by simpa using h⟩
  | succ n ih =>
    intro i s hstep h
    obtain ⟨t, ht, h1⟩ := hstep i s (le_refl _) (by push_cast; omega) h
    obtain ⟨s', hs', h2⟩ := ih (i + 1) t
      (fun k u hk hk' => hstep k u (by omega) (by push_cast; omega)) h1
    refine ⟨s', ?_, ?_⟩
    · simp only [forLoopEAux, ht]; exact hs'
    · have e : i + ((n + 1 : Nat) : Int) = i + 1 + (n : Int) := by push_cast; ring
      rw [e]; exact h2

theorem forLoopE_inv {σ ε : Type} (body : Int → σ → Except ε σ) (P : Int → σ → Prop)
    (lo hi : Int) (s : σ) (hle : lo ≤ hi)
    (hstep : ∀ k t, lo ≤ k → k < hi → P k t → ∃ t', body k t = .ok t' ∧ P (k + 1) t')
    (h : P lo s) : ∃ s', forLoopE lo hi body s = .ok s' ∧ P hi s' := by
  have e : lo + ((hi - lo).toNat : Int) = hi := by
    rw [Int.toNat_of_nonneg (by omega)]; ring
  have := forLoopEAux_inv body P (hi - lo).toNat lo s
    (fun k t hk hk' => hstep k t hk (by omega)) h
  rw [e] at this
  exact this

/-- A loop over no state runs to its end exactly when every iteration does. -/
theorem forLoopEAux_unit_ok {ε : Type} (body : Int → Unit → Except ε Unit) :
    ∀ (n : Nat) (i : Int),
      forLoopEAux body n i () = .ok () ↔ ∀ k, i ≤ k → k < i + n → body k () = .ok () := by
  intro n
  induction n with
  | zero => intro i; simp [forLoopEAux]; intro k hk hk'; omega
  | succ n ih =>
    intro i
    constructor
    · intro h k hk hk'
      cases hb : body i () with
      | error e => simp [forLoopEAux, hb] at h
      | ok u =>
        simp only [forLoopEAux, hb] at h
        rcases eq_or_lt_of_le hk with rfl | hlt
        · exact hb
        · exact (ih (i + 1)).1 h k (by omega) (by push_cast at hk'; omega)
    · intro h
      have hb := h i (le_refl _) (by push_cast; omega)
      simp only [forLoopEAux, hb]
      exact (ih (i + 1)).2 (fun k hk hk' => h k (by omega) (by push_cast; omega))

theorem forLoopE_unit_ok {ε : Type} (body : Int → Unit → Except ε Unit) (lo hi : Int) :
    forLoopE lo hi body () = .ok () ↔ ∀ k, lo ≤ k → k < hi → body k () = .ok () := by
  unfold forLoopE
  rw [forLoopEAux_unit_ok]
  constructor
  · intro h k hk hk'
    exact h k hk (by omega)
  · intro h k hk hk'
    exact h k hk (by omega)

/-- A loop can only be left early with a value some iteration produced. -/
theorem forLoopEAux_error {σ ε : Type} (body : Int → σ → Except ε σ) (Q : ε → Prop)
    (hQ : ∀ k t e, body k t = .error e → Q e) :
    ∀ (n : Nat) (i : Int) (s : σ) (e : ε), forLoopEAux body n i s = .error e → Q e := by
  intro n
  induction n with
  | zero => intro i s e h; simp [forLoopEAux] at h
  | succ n ih =>
    intro i s e h
    cases hb : body i s with
    | error e' =>
      simp only [forLoopEAux, hb] at h
      cases h
      exact hQ i s _ hb
    | ok u =>
      simp only [forLoopEAux, hb] at h
      exact ih (i + 1) u e h

/-- The check `vec_sum_gold` returns true exactly when no compared pair differs under
the float comparison. -/
theorem vec_sum_gold_iff {F : Type} (ops : FloatOps F) (VEC_LEN VEC_NUM : Int) (a res : Int → F) :
    vec_sum_gold ops VEC_LEN VEC_NUM a res = true ↔
      ∀ i j, 1 ≤ i → i < VEC_NUM → 0 ≤ j → j < VEC_LEN →
        ops.ne (ops.add (a ((i - 1) * VEC_LEN + j)) (a (i * VEC_LEN + j)))
          (res ((i - 1) * VEC_LEN + j)) = false := by
  have inner : ∀ i j : Int,
      (if ops.ne (ops.add (a ((i - 1) * VEC_LEN + j)) (a (i * VEC_LEN + j)))
            (res ((i - 1) * VEC_LEN + j)) = true
        then (Except.error false : Except Bool Unit) else Except.ok ()) = Except.ok () ↔
      ops.ne (ops.add (a ((i - 1) * VEC_LEN + j)) (a (i * VEC_LEN + j)))
          (res ((i - 1) * VEC_LEN + j)) = false := by
    intro i j
    cases ops.ne (ops.add (a ((i - 1) * VEC_LEN + j)) (a (i * VEC_LEN + j)))
      (res ((i - 1) * VEC_LEN + j)) <;> simp
  have hok : ∀ r : Except Bool Unit, r = .ok () ∨ ∃ b, r = .error b := by
    intro r
    cases r with
    | ok u => exact Or.inl rfl
    | error b => exact Or.inr ⟨b, rfl⟩
  unfold vec_sum_gold
  rcases hok (forLoopE 1 VEC_NUM (fun i _ =>
      forLoopE 0 VEC_LEN (fun j (_ : Unit) =>
        let gold_res := ops.add (a ((i - 1) * VEC_LEN + j)) (a (i * VEC_LEN + j))
        if ops.ne gold_res (res ((i - 1) * VEC_LEN + j)) then .error false else .ok ()) ()) ())
    with h | ⟨b, h⟩
  · rw [h]
    simp only [true_iff]
    intro i j hi hi' hj hj'
    have h1 := (forLoopE_unit_ok _ 1 VEC_NUM).1 h i hi hi'
    have h2 := (forLoopE_unit_ok _ 0 VEC_LEN).1 h1 j hj hj'
    exact (inner i j).1 h2
  · rw [h]
    have hb : b = false := by
      refine forLoopEAux_error _ (fun e => e = false) ?_ _ _ _ _ h
      intro k t e hk
      refine forLoopEAux_error _ (fun e => e = false) ?_ _ _ _ _ hk
      intro k' t' e' hk'
      dsimp only at hk'
      split at hk'
      · cases hk'; rfl
      · cases hk'
    subst hb
    simp only [Bool.false_eq_true, false_iff]
    intro hall
    have : forLoopE 1 VEC_NUM (fun i _ =>
      forLoopE 0 VEC_LEN (fun j (_ : Unit) =>
        let gold_res := ops.add (a ((i - 1) * VEC_LEN + j)) (a (i * VEC_LEN + j))
        if ops.ne gold_res (res ((i - 1) * VEC_LEN + j)) then .error false else .ok ()) ()) ()
        = .ok () := by
      rw [forLoopE_unit_ok]
      intro i hi hi'
      rw [forLoopE_unit_ok]
      intro j hj hj'
      exact (inner i j).2 (hall i j hi hi' hj hj')
    rw [this] at h
    cases h

theorem loopBody_spec {F : Type} (env : Env F) (ops : FloatOps F) (h : ∀ n, env.status n = 0)
    (i j : Int) (s : State F) (hsz : s.VEC_SIZE = s.VEC_LEN * sizeofFloat) :
    ∃ s', loopBody env ops i j s = .ok s' ∧ SameGlobals s s' ∧
      (∀ p, s'.h_res p =
        if (i - 1) * s.VEC_LEN + j ≤ p ∧ p < (i - 1) * s.VEC_LEN + j + s.VEC_LEN
        then ops.add (s.h_data p) (s.h_data (p + s.VEC_LEN)) else s.h_res p) ∧
      s'.trace = s.trace ++ cycle s.VEC_SIZE s.VEC_LEN s.fresh i j ∧
      s'.live = s.live ++ [s.fresh, s.fresh + 1, s.fresh + 2] ∧
      s'.fresh = s.fresh + 3 ∧
      s'.d_dataA = some s.fresh ∧ s'.d_dataB = some (s.fresh + 1) ∧
      s'.d_res = some (s.fresh + 2) := by
  simp [loopBody, clCreateBuffer, clEnqueueWriteBuffer, clSetKernelArgMem, clSetKernelArgInt,
    clEnqueueTask, clEnqueueReadBuffer, checkError, State.call, h, bind, Except.bind,
    SameGlobals, cycle, vector_sum, elems, hsz, sizeofFloat]
  intro p
  have e : i * s.VEC_LEN + j + (p - ((i - 1) * s.VEC_LEN + j)) = p + s.VEC_LEN := by ring
  rw [e]
  by_cases hc : (i - 1) * s.VEC_LEN + j ≤ p ∧ p - ((i - 1) * s.VEC_LEN + j) < s.VEC_LEN
  · have hc' : (i - 1) * s.VEC_LEN + j ≤ p ∧ p < (i - 1) * s.VEC_LEN + j + s.VEC_LEN :=
      ⟨hc.1, by omega⟩
    rw [if_pos hc, if_pos hc, if_pos hc, if_pos hc, if_pos hc']
  · have hc' : ¬ ((i - 1) * s.VEC_LEN + j ≤ p ∧ p < (i - 1) * s.VEC_LEN + j + s.VEC_LEN) := by
      intro hn
      exact hc ⟨hn.1, by omega⟩
    rw [if_neg hc, if_neg hc']

theorem SameGlobals.trans {F : Type} {a b c : State F} (h1 : SameGlobals a b)
    (h2 : SameGlobals b c) : SameGlobals a c := by
  unfold SameGlobals at *
  simp_all

theorem SameGlobals.refl {F : Type} (s : State F) : SameGlobals s s := by
  simp [SameGlobals]

theorem LoopInv.start {F : Type} (ops : FloatOps F) (s0 : State F) : LoopInv ops s0 0 s0 := by
  refine ⟨SameGlobals.refl s0, ?_, ?_, ?_, ?_, ?_⟩
  · intro p h0 h1; simp at h1; omega
  · simp [loopTrace]
  · simp
  · simp
  · intro h; omega

theorem counters_of_pass (L i j : Int) (c : Nat) (hc : (c : Int) = (i - 1) * L + j)
    (hj : 0 ≤ j) (hjL : j < L) : (c : Int) / L + 1 = i ∧ (c : Int) % L = j := by
  have hL : L ≠ 0 := by omega
  rw [hc]
  constructor
  · rw [add_comm ((i - 1) * L) j, Int.add_mul_ediv_right _ _ hL, Int.ediv_eq_zero_of_lt hj hjL]
    ring
  · rw [add_comm ((i - 1) * L) j, Int.add_mul_emod_self, Int.emod_eq_of_lt hj hjL]

theorem LoopInv.step {F : Type} (env : Env F) (ops : FloatOps F) (h : ∀ n, env.status n = 0)
    (s0 s : State F) (hsz : s0.VEC_SIZE = s0.VEC_LEN * sizeofFloat) (i j : Int) (c : Nat)
    (hc : (c : Int) = (i - 1) * s0.VEC_LEN + j) (hj : 0 ≤ j) (hjL : j < s0.VEC_LEN)
    (hinv : LoopInv ops s0 c s) :
    ∃ s', loopBody env ops i j s = .ok s' ∧ LoopInv ops s0 (c + 1) s' := by
  obtain ⟨hg, hres, htr, hlive, hfresh, -⟩ := hinv
  have hg' := hg
  obtain ⟨hLEN, hSIZE, -, hdata, -⟩ := hg'
  obtain ⟨s', hs', hg2, hres2, htr2, hlive2, hfresh2, hA, hB, hR⟩ :=
    loopBody_spec env ops h i j s (by rw [hSIZE, hLEN]; exact hsz)
  refine ⟨s', hs', hg.trans hg2, ?_, ?_, ?_, ?_, ?_⟩
  · intro p hp0 hp1
    rw [hres2 p, hLEN, hdata, ← hc]
    by_cases hp : p = c
    · subst hp
      rw [if_pos ⟨le_refl _, by omega⟩]
    · have hlt : p < c := by push_cast at hp1; omega
      rw [if_neg (by omega)]
      exact hres p hp0 hlt
  · obtain ⟨hi', hj'⟩ := counters_of_pass s0.VEC_LEN i j c hc hj hjL
    rw [htr2, htr, hSIZE, hLEN, hfresh]
    simp [loopTrace, List.range_succ, hi', hj']
  · rw [hlive2, hlive, hfresh]
    have e : 3 * (c + 1) = 3 + 3 * c := by ring
    rw [e, ← List.range'_append_1, List.append_assoc]
    rfl
  · rw [hfresh2, hfresh]; ring
  · intro _
    rw [hA, hB, hR, hfresh]
    refine ⟨?_, ?_, ?_⟩ <;> congr 1

/-- With every runtime call succeeding, the compute loops run to their end and
make `(VEC_NUM - 1) * VEC_LEN` passes through the body. -/
theorem computeLoop_spec {F : Type} (env : Env F) (ops : FloatOps F)
    (h : ∀ n, env.status n = 0) (s0 : State F)
    (hsz : s0.VEC_SIZE = s0.VEC_LEN * sizeofFloat) (hN : 1 ≤ s0.VEC_NUM) (hL : 0 ≤ s0.VEC_LEN) :
    ∃ (s' : State F) (c : Nat), computeLoop env ops s0 = .ok s' ∧ (c : Int) = (s0.VEC_NUM - 1) * s0.VEC_LEN ∧
      LoopInv ops s0 c s' := by
  have outer := forLoopE_inv
    (fun i s => forLoopE 0 s.VEC_LEN (fun j s => loopBody env ops i j s) s)
    (fun i s => ∃ c : Nat, (c : Int) = (i - 1) * s0.VEC_LEN ∧ LoopInv ops s0 c s)
    1 s0.VEC_NUM s0 hN ?_ ⟨0, by simp, LoopInv.start ops s0⟩
  · obtain ⟨s', hs', c, hc, hinv⟩ := outer
    exact ⟨s', c, hs', hc, hinv⟩
  · intro i s hi hi' ⟨c, hc, hinv⟩
    have hLEN : s.VEC_LEN = s0.VEC_LEN := hinv.1.1
    have inner := forLoopE_inv (fun j s => loopBody env ops i j s)
      (fun j s => ∃ c : Nat, (c : Int) = (i - 1) * s0.VEC_LEN + j ∧ LoopInv ops s0 c s)
      0 s0.VEC_LEN s hL ?_ ⟨c, by simpa using hc, hinv⟩
    · obtain ⟨s', hs', c', hc', hinv'⟩ := inner
      refine ⟨s', ?_, c', ?_, hinv'⟩
      · simp only [hLEN]; exact hs'
      · rw [hc']; ring
    · intro j t hj hj' ⟨d, hd, hinvd⟩
      obtain ⟨t', ht', hinv'⟩ := LoopInv.step env ops h s0 t hsz i j d hd hj hj' hinvd
      exact ⟨t', ht', d + 1, by push_cast; rw [hd]; ring, hinv'⟩

theorem row_of_offset (L i j : Int) (hj : 0 ≤ j) (hjL : j < L) : (i * L + j) / L = i := by
  have hL : L ≠ 0 := by omega
  rw [add_comm (i * L) j, Int.add_mul_ediv_right _ _ hL, Int.ediv_eq_zero_of_lt hj hjL]
  ring

theorem initInput_spec {F : Type} (ops : FloatOps F) (s0 : State F) (hN : 0 ≤ s0.VEC_NUM)
    (hL : 0 ≤ s0.VEC_LEN) : InitInv ops s0 (s0.VEC_NUM * s0.VEC_LEN) (initInput ops s0) := by
  unfold initInput
  refine forLoop_inv _ (fun i s => InitInv ops s0 (i * s0.VEC_LEN) s) 0 s0.VEC_NUM s0 hN ?_ ?_
  · intro i s hi hi' hinv
    have hLEN : s.VEC_LEN = s0.VEC_LEN := by
      obtain ⟨d, v, hs, -⟩ := hinv
      rw [hs]
    have e : (i + 1) * s0.VEC_LEN = i * s0.VEC_LEN + s0.VEC_LEN := by ring
    simp only [hLEN, e]
    refine forLoop_inv _ (fun j s => InitInv ops s0 (i * s0.VEC_LEN + j) s) 0 s0.VEC_LEN s hL
      ?_ (by simpa using hinv)
    intro j t hj hj' ⟨d, v, ht, hd, hv⟩
    have hrow := row_of_offset s0.VEC_LEN i j hj hj'
    have hpos : 0 ≤ i * s0.VEC_LEN := Int.mul_nonneg hi hL
    refine ⟨store d (i * s0.VEC_LEN + j) (ops.ofInt (s0.VEC_LEN * i)),
      store v (i * s0.VEC_LEN + j) (ops.ofInt (s0.VEC_LEN * i)), ?_, ?_, ?_⟩
    · rw [ht]
    · intro p
      unfold store
      by_cases hp : p = i * s0.VEC_LEN + j
      · rw [if_pos hp, if_pos ⟨by omega, by omega⟩, hp, hrow]
      · rw [if_neg hp, hd p]
        by_cases hq : 0 ≤ p ∧ p < i * s0.VEC_LEN + j
        · rw [if_pos hq, if_pos ⟨hq.1, by omega⟩]
        · rw [if_neg hq, if_neg (by omega)]
    · intro p
      unfold store
      by_cases hp : p = i * s0.VEC_LEN + j
      · rw [if_pos hp, if_pos ⟨by omega, by omega⟩, hp, hrow]
      · rw [if_neg hp, hv p]
        by_cases hq : 0 ≤ p ∧ p < i * s0.VEC_LEN + j
        · rw [if_pos hq, if_pos ⟨hq.1, by omega⟩]
        · rw [if_neg hq, if_neg (by omega)]
  · exact ⟨s0.h_data, s0.h_verify, rfl, by intro p; rw [if_neg (by omega)],
      by intro p; rw [if_neg (by omega)]⟩

theorem mainCompute_healthy {F : Type} (ops : FloatOps F) (env : Env F) (hh : env.Healthy)
    (s : State F) (hs : computeLoop env ops (initInput ops (ready env)) = .ok s) :
    mainCompute ops env = .ok (none, s) := by
  obtain ⟨h1, h2, h3, h4⟩ := hh
  simp only [ready] at hs
  simp [mainCompute, init, allocHost, malloc, checkError, State.call, h1, h2, h3, h4, bind,
    Except.bind, pure, Except.pure, Nat.add_assoc]
  rw [hs]

theorem releaseIf_out {F : Type} (c : Bool) (op : DevOp) (s : State F) :
    (releaseIf c op s).out = s.out := by
  unfold releaseIf State.log; split <;> rfl

theorem releaseBuffer_out {F : Type} (b : Option Nat) (s : State F) :
    (releaseBuffer b s).out = s.out := by
  unfold releaseBuffer clReleaseMemObject; split <;> rfl

theorem cleanup_out {F : Type} (s : State F) : (cleanup s).out = s.out := by
  simp only [cleanup, releaseIf_out, releaseBuffer_out]

theorem main_of_compute {F : Type} (ops : FloatOps F) (env : Env F) (s : State F)
    (h : mainCompute ops env = .ok (none, s)) :
    main ops env = ⟨.returned 0, cleanup { s with out := s.out ++ ["Verifying data --> " ++
      if vec_sum_gold ops s.VEC_LEN s.VEC_NUM s.h_verify s.h_res then "PASSED" else "FAILED"] }⟩ := by
  unfold main
  rw [h]

theorem parse_VEC_SIZE {F : Type} (env : Env F) :
    (parseOptions env (initial env)).VEC_SIZE =
      (parseOptions env (initial env)).VEC_LEN * sizeofFloat := by
  unfold parseOptions initial
  cases env.vec_len <;> cases env.vec_num <;> simp <;> split <;> simp

theorem parse_VEC_NUM {F : Type} (env : Env F) : 2 ≤ (parseOptions env (initial env)).VEC_NUM := by
  unfold parseOptions initial
  cases env.vec_len <;> cases env.vec_num <;> simp <;> split <;> simp <;> omega

theorem healthy_run {F : Type} (ops : FloatOps F) (env : Env F) (hh : env.Healthy)
    (hL : 0 ≤ (parseOptions env (initial env)).VEC_LEN) :
    ∃ (s : State F) (c : Nat), mainCompute ops env = .ok (none, s) ∧
      (c : Int) = ((ready env).VEC_NUM - 1) * (ready env).VEC_LEN ∧
      InitInv ops (ready env) ((ready env).VEC_NUM * (ready env).VEC_LEN)
        (initInput ops (ready env)) ∧
      LoopInv ops (initInput ops (ready env)) c s := by
  have hN2 := parse_VEC_NUM env
  have hN : 0 ≤ (ready env).VEC_NUM := by
    show 0 ≤ (parseOptions env (initial env)).VEC_NUM
    omega
  have hinit := initInput_spec ops (ready env) hN hL
  have hinit' := hinit
  obtain ⟨d, v, hs1, -, -⟩ := hinit'
  have hLEN : (initInput ops (ready env)).VEC_LEN = (ready env).VEC_LEN := by rw [hs1]
  have hNUM : (initInput ops (ready env)).VEC_NUM = (ready env).VEC_NUM := by rw [hs1]
  have hSIZE : (initInput ops (ready env)).VEC_SIZE = (ready env).VEC_SIZE := by rw [hs1]
  obtain ⟨s, c, hs, hc, hinv⟩ := computeLoop_spec env ops hh.2.2.1 (initInput ops (ready env))
    (by rw [hSIZE, hLEN]; exact parse_VEC_SIZE env)
    (by rw [hNUM]; show 1 ≤ (parseOptions env (initial env)).VEC_NUM; omega)
    (by rw [hLEN]; exact hL)
  refine ⟨s, c, mainCompute_healthy ops env hh s hs, ?_, hinit, hinv⟩
  rw [hc, hNUM, hLEN]

theorem goodEnv_healthy (a b : Option Int) (g : Int) : (goodEnv a b g).Healthy :=
  ⟨rfl, rfl, fun _ => rfl, fun _ => rfl⟩

/-- C2. If every compared element of res equals (under the float comparison,
that is `!=` is false) the sum of the two elements of a it is compared with,
vec_sum_gold(a, res) returns true; this holds for all VEC_LEN and VEC_NUM. -/
theorem vec_sum_gold_true_of_sums {F : Type} (ops : FloatOps F) (VEC_LEN VEC_NUM : Int)
    (a res : Int → F)
    (h : ∀ i j, 1 ≤ i → i < VEC_NUM → 0 ≤ j → j < VEC_LEN →
      ops.ne (ops.add (a ((i - 1) * VEC_LEN + j)) (a (i * VEC_LEN + j)))
        (res ((i - 1) * VEC_LEN + j)) = false) :
    vec_sum_gold ops VEC_LEN VEC_NUM a res = true :=
  (vec_sum_gold_iff ops VEC_LEN VEC_NUM a res).2 h

theorem vec_sum_gold_true_of_sums_witness :
    vec_sum_gold intOps 4 3 fixture4 sums4 = true :=
  vec_sum_gold_true_of_sums intOps 4 3 fixture4 sums4 (by
    intro i j _ _ _ _
    have e : i * 4 + j = (i - 1) * 4 + j + 4 := by ring
    simp [intOps, sums4, e])

/-- C3. vec_sum_gold compares with the float `!=` and no tolerance: if some
compared element of res differs from the sum of the two elements of a it is
compared with, vec_sum_gold(a, res) returns false. -/
theorem vec_sum_gold_false_of_mismatch {F : Type} (ops : FloatOps F) (VEC_LEN VEC_NUM : Int)
    (a res : Int → F)
    (h : ∃ i j, 1 ≤ i ∧ i < VEC_NUM ∧ 0 ≤ j ∧ j < VEC_LEN ∧
      ops.ne (ops.add (a ((i - 1) * VEC_LEN + j)) (a (i * VEC_LEN + j)))
        (res ((i - 1) * VEC_LEN + j)) = true) :
    vec_sum_gold ops VEC_LEN VEC_NUM a res = false := by
  obtain ⟨i, j, hi, hi', hj, hj', hne⟩ := h
  cases hg : vec_sum_gold ops VEC_LEN VEC_NUM a res with
  | false => rfl
  | true =>
    have := (vec_sum_gold_iff ops VEC_LEN VEC_NUM a res).1 hg i j hi hi' hj hj'
    rw [this] at hne
    cases hne

theorem vec_sum_gold_false_of_mismatch_witness :
    vec_sum_gold intOps 4 3 fixture4 sums4_off = false :=
  vec_sum_gold_false_of_mismatch intOps 4 3 fixture4 sums4_off
    ⟨2, 3, by decide, by decide, by decide, by decide, by decide⟩

/-- C4. A `--vec-num` value below 2 leaves VEC_NUM as it was (and the warning
is printed), a value of at least 2 becomes VEC_NUM; VEC_NUM starts as 2, so it
is at least 2 after option handling on every command line. -/
theorem parseOptions_vec_num {F : Type} (env : Env F) (s : State F) :
    (∀ v, env.vec_num = some v → v < 2 →
      (parseOptions env s).VEC_NUM = s.VEC_NUM ∧
      (parseOptions env s).out
        = s.out ++ ["Number of vectors must be greater than or equal to 2"]) ∧
    (∀ v, env.vec_num = some v → 2 ≤ v → (parseOptions env s).VEC_NUM = v) ∧
    (initial env).VEC_NUM = 2 ∧
    2 ≤ (parseOptions env (initial env)).VEC_NUM := by
  refine ⟨?_, ?_, rfl, parse_VEC_NUM env⟩
  · intro v hv hlt
    unfold parseOptions
    rw [hv]
    have hn : ¬ 2 ≤ v := by omega
    cases env.vec_len <;> simp [hn]
  · intro v hv hge
    unfold parseOptions
    rw [hv]
    cases env.vec_len <;> simp [hge]

theorem parseOptions_vec_num_witness :
    (parseOptions (goodEnv none (some 1) 0) (initial (goodEnv none (some 1) 0))).VEC_NUM = 2 ∧
    (parseOptions (goodEnv none (some 5) 0) (initial (goodEnv none (some 5) 0))).VEC_NUM = 5 :=
  ⟨((parseOptions_vec_num (goodEnv none (some 1) 0) (initial (goodEnv none (some 1) 0))).1 1 rfl
      (by decide)).1,
   (parseOptions_vec_num (goodEnv none (some 5) 0) (initial (goodEnv none (some 5) 0))).2.1 5 rfl
      (by decide)⟩

/-- An early `return` of `main` always carries the value of `false`. -/
theorem mainCompute_early_return {F : Type} (ops : FloatOps F) (env : Env F) (code : Int)
    (s : State F) (h : mainCompute ops env = .ok (some code, s)) : code = 0 := by
  unfold mainCompute at h
  simp only [bind, Except.bind, pure, Except.pure] at h
  split at h
  · cases h
  · rename_i v hv
    obtain ⟨ok, t⟩ := v
    dsimp only at h
    split at h
    · cases h; rfl
    · split at h
      · cases h; rfl
      · split at h
        · cases h
        · cases h

/-- C5. What the code does where the claim asks for a non-zero exit status:
`main` never returns a non-zero value (a run either returns 0 or is terminated
by `checkError`); in particular it returns 0, the value of `false`, when
`setCwdToExeDir` fails, when no platform is found and when a `malloc` returns
null. -/
theorem main_returns_zero_on_setup_failure :
    (∀ (F : Type) (ops : FloatOps F) (env : Env F),
      (main ops env).outcome = .returned 0 ∨ ∃ st, (main ops env).outcome = .aborted st) ∧
    (main intOps { goodEnv none none 0 with setCwdOk := false }).outcome = .returned 0 ∧
    (main intOps { goodEnv none none 0 with platformFound := false }).outcome = .returned 0 ∧
    (main intOps { goodEnv none none 0 with mallocOk := fun n => decide (n ≠ 1) }).outcome
      = .returned 0 := by
  refine ⟨?_, by decide, by decide, by decide⟩
  intro F ops env
  unfold main
  cases h : mainCompute ops env with
  | error e => exact Or.inr ⟨e.1, rfl⟩
  | ok v =>
    obtain ⟨code, s⟩ := v
    cases code with
    | none => exact Or.inl rfl
    | some code =>
      have := mainCompute_early_return ops env code s h
      subst this
      exact Or.inl rfl

/-- C6. A run that gets past device setup, host allocation and the compute
loops returns 0 whatever `vec_sum_gold` returns: its result only selects the
word PASSED or FAILED of the last line printed. -/
theorem main_exit_status_ignores_verification {F : Type} (ops : FloatOps F) (env : Env F)
    (s : State F) (h : mainCompute ops env = .ok (none, s)) :
    (main ops env).outcome = .returned 0 ∧
    (main ops env).final.out = s.out ++ ["Verifying data --> " ++
      if vec_sum_gold ops s.VEC_LEN s.VEC_NUM s.h_verify s.h_res then "PASSED" else "FAILED"] := by
  rw [main_of_compute ops env s h]
  exact ⟨rfl, by rw [cleanup_out]⟩

theorem main_exit_status_ignores_verification_witness :
    ((main intOps (goodEnv (some 2) (some 2) 0)).outcome = .returned 0 ∧
      (main intOps (goodEnv (some 2) (some 2) 0)).final.out.getLast?
        = some "Verifying data --> PASSED") ∧
    ((main nanOps (goodEnv (some 2) (some 2) 0)).outcome = .returned 0 ∧
      (main nanOps (goodEnv (some 2) (some 2) 0)).final.out.getLast?
        = some "Verifying data --> FAILED") := by
  obtain ⟨s, -, hs, -⟩ := healthy_run intOps (goodEnv (some 2) (some 2) 0)
    (goodEnv_healthy _ _ _) (by decide)
  obtain ⟨t, -, ht, -⟩ := healthy_run nanOps (goodEnv (some 2) (some 2) 0)
    (goodEnv_healthy _ _ _) (by decide)
  exact ⟨⟨(main_exit_status_ignores_verification intOps _ s hs).1, by decide⟩,
    ⟨(main_exit_status_ignores_verification nanOps _ t ht).1, by decide⟩⟩

/-- C7. After the initialisation loops, for every row i in [0, VEC_NUM) and
every j in [0, VEC_LEN), h_data[i*VEC_LEN + j] and h_verify[i*VEC_LEN + j] hold
VEC_LEN * i converted to float. -/
theorem initInput_rows {F : Type} (ops : FloatOps F) (s : State F) (i j : Int)
    (hi : 0 ≤ i) (hi' : i < s.VEC_NUM) (hj : 0 ≤ j) (hj' : j < s.VEC_LEN) :
    (initInput ops s).h_data (i * s.VEC_LEN + j) = ops.ofInt (s.VEC_LEN * i) ∧
    (initInput ops s).h_verify (i * s.VEC_LEN + j) = ops.ofInt (s.VEC_LEN * i) := by
  obtain ⟨d, v, hs, hd, hv⟩ := initInput_spec ops s (by omega) (by omega)
  have hrow := row_of_offset s.VEC_LEN i j hj hj'
  have h0 : 0 ≤ i * s.VEC_LEN + j := by
    have := Int.mul_nonneg hi (show 0 ≤ s.VEC_LEN by omega)
    omega
  have h1 : i * s.VEC_LEN + j < s.VEC_NUM * s.VEC_LEN := by
    have a : (i + 1) * s.VEC_LEN ≤ s.VEC_NUM * s.VEC_LEN :=
      Int.mul_le_mul_of_nonneg_right (by omega) (by omega)
    have b : (i + 1) * s.VEC_LEN = i * s.VEC_LEN + s.VEC_LEN := by ring
    omega
  rw [hs]
  show d _ = _ ∧ v _ = _
  rw [hd, hv, if_pos ⟨h0, h1⟩, if_pos ⟨h0, h1⟩, hrow]
  exact ⟨rfl, rfl⟩

theorem initInput_rows_witness :
    ((initInput intOps (initial (goodEnv none none 77))).h_data (0 * 64 + 63) = 0 ∧
      (initInput intOps (initial (goodEnv none none 77))).h_verify (0 * 64 + 63) = 0) ∧
    ((initInput intOps (initial (goodEnv none none 77))).h_data (1 * 64 + 5) = 64 ∧
      (initInput intOps (initial (goodEnv none none 77))).h_verify (1 * 64 + 5) = 64) :=
  ⟨initInput_rows intOps (initial (goodEnv none none 77)) 0 63 (by decide) (by decide)
      (by decide) (by decide),
   initInput_rows intOps (initial (goodEnv none none 77)) 1 5 (by decide) (by decide)
      (by decide) (by decide)⟩

theorem ready_fields {F : Type} (env : Env F) :
    (ready env).trace = [.createContext, .createCommandQueue, .buildProgram, .createKernel] ∧
    (ready env).live = [] ∧ (ready env).fresh = 0 ∧
    (ready env).d_dataA = none ∧ (ready env).d_dataB = none ∧ (ready env).d_res = none := by
  unfold ready parseOptions initial
  cases env.vec_len <;> cases env.vec_num <;> simp <;> split <;> simp

theorem mem_loopTrace (VEC_SIZE VEC_LEN : Int) (h0 c : Nat) (op : DevOp) :
    op ∈ loopTrace VEC_SIZE VEC_LEN h0 c ↔
      ∃ k : Nat, k < c ∧
        op ∈ cycle VEC_SIZE VEC_LEN (h0 + 3 * k) ((k : Int) / VEC_LEN + 1) ((k : Int) % VEC_LEN) := by
  simp [loopTrace, List.mem_flatMap, List.mem_range]

theorem offsets_of_pass (L k : Int) :
    (k / L + 1 - 1) * L + k % L = k ∧ (k / L + 1) * L + k % L = k + L := by
  have := Int.ediv_add_emod k L
  constructor
  · have e : (k / L + 1 - 1) * L = L * (k / L) := by ring
    omega
  · have e : (k / L + 1) * L = L * (k / L) + L := by ring
    omega

/-- C10. In a run in which no runtime call or allocation fails, with
VEC_LEN >= 1, the three host buffers hold 4*VEC_LEN*VEC_NUM floats
(VEC_SIZE*VEC_NUM*sizeof(float) bytes), every transfer of the run addresses a
host window inside its allocation, and for every i in [1, VEC_NUM) and j in
[0, VEC_LEN) the run makes the transfers of VEC_LEN floats from h_data at
(i-1)*VEC_LEN + j and i*VEC_LEN + j and to h_res at (i-1)*VEC_LEN + j, windows
that end at or before element 4*VEC_LEN*VEC_NUM. -/
theorem transfer_windows_inside_allocation {F : Type} (ops : FloatOps F) (env : Env F)
    (L N : Int) (hh : env.Healthy)
    (hLEN : (parseOptions env (initial env)).VEC_LEN = L)
    (hNUM : (parseOptions env (initial env)).VEC_NUM = N)
    (hL : 1 ≤ L) :
    ∃ s : State F, mainCompute ops env = .ok (none, s) ∧
      s.h_data_bytes = 4 * L * N * sizeofFloat ∧ s.h_verify_bytes = 4 * L * N * sizeofFloat ∧
      s.h_res_bytes = 4 * L * N * sizeofFloat ∧
      (∀ op ∈ s.trace, inAllocation s op = true) ∧
      (∀ i j, 1 ≤ i → i < N → 0 ≤ j → j < L →
        (∃ a b r : Option Nat,
          DevOp.writeBuffer a (L * sizeofFloat) ((i - 1) * L + j) ∈ s.trace ∧
          DevOp.writeBuffer b (L * sizeofFloat) (i * L + j) ∈ s.trace ∧
          DevOp.readBuffer r (L * sizeofFloat) ((i - 1) * L + j) ∈ s.trace) ∧
        (i - 1) * L + j + L ≤ 4 * L * N ∧ i * L + j + L ≤ 4 * L * N) := by
  have hN := parse_VEC_NUM env
  rw [hNUM] at hN
  obtain ⟨s, c, hs, hc, ⟨d, v, hs1, -, -⟩, hg, -, htr, -⟩ :=
    healthy_run ops env hh (by rw [hLEN]; omega)
  obtain ⟨rtr, -, rfr, -⟩ := ready_fields env
  have hSZ : (parseOptions env (initial env)).VEC_SIZE = L * sizeofFloat := by
    rw [parse_VEC_SIZE, hLEN]
  have e1 : (initInput ops (ready env)).trace = (ready env).trace := by rw [hs1]
  have e2 : (initInput ops (ready env)).VEC_SIZE = L * sizeofFloat := by rw [hs1]; exact hSZ
  have e3 : (initInput ops (ready env)).VEC_LEN = L := by rw [hs1]; exact hLEN
  have e4 : (initInput ops (ready env)).fresh = 0 := by rw [hs1]; exact rfr
  have hbytes : (ready env).h_data_bytes = 4 * L * N * sizeofFloat ∧
      (ready env).h_verify_bytes = 4 * L * N * sizeofFloat ∧
      (ready env).h_res_bytes = 4 * L * N * sizeofFloat := by
    refine ⟨?_, ?_, ?_⟩ <;>
    · show (parseOptions env (initial env)).VEC_SIZE * (parseOptions env (initial env)).VEC_NUM
        * sizeofFloat = _
      rw [hSZ, hNUM]
      simp only [sizeofFloat]
      ring
  have b1 : s.h_data_bytes = 4 * L * N * sizeofFloat := by
    rw [hg.2.2.2.2.2.2.2.2.2.2.2.2.2.1, hs1]; exact hbytes.1
  have b2 : s.h_verify_bytes = 4 * L * N * sizeofFloat := by
    rw [hg.2.2.2.2.2.2.2.2.2.2.2.2.2.2.1, hs1]; exact hbytes.2.1
  have b3 : s.h_res_bytes = 4 * L * N * sizeofFloat := by
    rw [hg.2.2.2.2.2.2.2.2.2.2.2.2.2.2.2.1, hs1]; exact hbytes.2.2
  rw [e1, e2, e3, e4, rtr] at htr
  have hcL : (c : Int) = (N - 1) * L := by
    rw [hc]
    show ((parseOptions env (initial env)).VEC_NUM - 1) * (parseOptions env (initial env)).VEC_LEN
      = _
    rw [hLEN, hNUM]
  have hNL : L ≤ N * L := by nlinarith
  refine ⟨s, hs, b1, b2, b3, ?_, ?_⟩
  · intro op hop
    rw [htr, List.mem_append] at hop
    rcases hop with hop | hop
    · simp at hop
      rcases hop with rfl | rfl | rfl | rfl <;> rfl
    · rw [mem_loopTrace] at hop
      obtain ⟨k, hk, hop⟩ := hop
      obtain ⟨o1, o2⟩ := offsets_of_pass L k
      have hk' : (k : Int) < (N - 1) * L := by rw [← hcL]; exact_mod_cast hk
      have hk2 : (k : Int) + L < N * L := by
        have : (N - 1) * L = N * L - L := by ring
        omega
      simp only [cycle, List.mem_cons, List.mem_singleton, List.not_mem_nil, or_false] at hop
      rcases hop with rfl | rfl | rfl | rfl | rfl | rfl | rfl | rfl | rfl | rfl | rfl | rfl | rfl
      all_goals simp only [inAllocation, decide_eq_true_eq, o1, o2, b1, b3, sizeofFloat]
      all_goals
        have h4 : 4 * L * N * 4 = 16 * (N * L) := by ring
        rw [h4]
        constructor <;> omega
  · intro i j hi hi' hj hj'
    have a1 : 0 ≤ (i - 1) * L := Int.mul_nonneg (by omega) (by omega)
    have a2 : (i - 1) * L ≤ (N - 2) * L := Int.mul_le_mul_of_nonneg_right (by omega) (by omega)
    have a3 : (N - 1) * L = (N - 2) * L + L := by ring
    have a4 : i * L = (i - 1) * L + L := by ring
    have a5 : 4 * L * N = 4 * ((N - 2) * L) + 8 * L := by ring
    have hkc : ((i - 1) * L + j).toNat < c := by
      have : (((i - 1) * L + j).toNat : Int) < (c : Int) := by
        rw [Int.toNat_of_nonneg (by omega), hcL]; omega
      exact_mod_cast this
    obtain ⟨p1, p2⟩ := counters_of_pass L i j ((i - 1) * L + j).toNat
      (Int.toNat_of_nonneg (by omega)) hj hj'
    refine ⟨⟨some (0 + 3 * ((i - 1) * L + j).toNat), some (0 + 3 * ((i - 1) * L + j).toNat + 1),
      some (0 + 3 * ((i - 1) * L + j).toNat + 2), ?_, ?_, ?_⟩, by omega, by omega⟩
    all_goals
      rw [htr, List.mem_append, mem_loopTrace]
      refine Or.inr ⟨((i - 1) * L + j).toNat, hkc, ?_⟩
      rw [p1, p2]
      simp [cycle]

theorem transfer_windows_inside_allocation_witness :
    (goodEnv (some 2) (some 2) 0).Healthy ∧ (1 : Int) ≤ 2 ∧
    ∃ s : State Int, mainCompute intOps (goodEnv (some 2) (some 2) 0) = .ok (none, s) ∧
      s.h_data_bytes = 4 * 2 * 2 * sizeofFloat ∧ s.h_verify_bytes = 4 * 2 * 2 * sizeofFloat ∧
      s.h_res_bytes = 4 * 2 * 2 * sizeofFloat ∧
      (∀ op ∈ s.trace, inAllocation s op = true) ∧
      (∀ i j, 1 ≤ i → i < 2 → 0 ≤ j → j < 2 →
        (∃ a b r : Option Nat,
          DevOp.writeBuffer a (2 * sizeofFloat) ((i - 1) * 2 + j) ∈ s.trace ∧
          DevOp.writeBuffer b (2 * sizeofFloat) (i * 2 + j) ∈ s.trace ∧
          DevOp.readBuffer r (2 * sizeofFloat) ((i - 1) * 2 + j) ∈ s.trace) ∧
        (i - 1) * 2 + j + 2 ≤ 4 * 2 * 2 ∧ i * 2 + j + 2 ≤ 4 * 2 * 2) :=
  ⟨goodEnv_healthy _ _ _, by decide,
    transfer_windows_inside_allocation intOps (goodEnv (some 2) (some 2) 0) 2 2
      (goodEnv_healthy _ _ _) rfl rfl (by decide)⟩

theorem releaseIf_fields {F : Type} (c : Bool) (op : DevOp) (s : State F) :
    (releaseIf c op s).live = s.live ∧ (releaseIf c op s).d_dataA = s.d_dataA ∧
    (releaseIf c op s).d_dataB = s.d_dataB ∧ (releaseIf c op s).d_res = s.d_res := by
  unfold releaseIf State.log; split <;> exact ⟨rfl, rfl, rfl, rfl⟩

theorem releaseBuffer_fields {F : Type} (b : Option Nat) (s : State F) :
    (releaseBuffer b s).d_dataA = s.d_dataA ∧
    (releaseBuffer b s).d_dataB = s.d_dataB ∧ (releaseBuffer b s).d_res = s.d_res := by
  unfold releaseBuffer clReleaseMemObject; split <;> exact ⟨rfl, rfl, rfl⟩

theorem releaseBuffer_live {F : Type} (b : Nat) (s : State F) :
    (releaseBuffer (some b) s).live = s.live.erase b := rfl

/-- The buffers still live after `cleanup`: those last stored in the three
global handles are released, every other one stays. -/
theorem cleanup_live {F : Type} (s : State F) (a b r : Nat) (ha : s.d_dataA = some a)
    (hb : s.d_dataB = some b) (hr : s.d_res = some r) :
    (cleanup s).live = ((s.live.erase a).erase b).erase r := by
  simp only [cleanup, (releaseIf_fields _ _ _).1, (releaseIf_fields _ _ _).2.1,
    (releaseIf_fields _ _ _).2.2.1, (releaseIf_fields _ _ _).2.2.2,
    (releaseBuffer_fields _ _).1, (releaseBuffer_fields _ _).2.1, (releaseBuffer_fields _ _).2.2,
    ha, hb, hr, releaseBuffer_live]

theorem erase_last_three (n : Nat) :
    (((List.range' 0 (3 * (n + 1))).erase (3 * n)).erase (3 * n + 1)).erase (3 * n + 2)
      = List.range' 0 (3 * n) := by
  have e : 3 * (n + 1) = 3 + 3 * n := by ring
  have h0 : ∀ m, 3 * n ≤ m → m ∉ List.range' 0 (3 * n) := by
    intro m hm; simp; omega
  rw [e, ← List.range'_append_1]
  have r3 : List.range' (0 + 3 * n) 3 = [3 * n, 3 * n + 1, 3 * n + 2] := by
    simp [List.range']
  rw [r3, List.erase_append_right _ (h0 _ (le_refl _)), List.erase_cons_head,
    List.erase_append_right _ (h0 _ (by omega)), List.erase_cons_head,
    List.erase_append_right _ (h0 _ (by omega)), List.erase_cons_head, List.append_nil]

/-- In a run in which no runtime call or allocation fails, with VEC_LEN >= 1,
the compute loops create 3 * c buffers in c = (VEC_NUM-1)*VEC_LEN passes and
`cleanup` releases the last three: the 3 * (c - 1) others are still live when
`main` returns. -/
theorem main_live_buffers {F : Type} (ops : FloatOps F) (env : Env F)
    (L N : Int) (hh : env.Healthy)
    (hLEN : (parseOptions env (initial env)).VEC_LEN = L)
    (hNUM : (parseOptions env (initial env)).VEC_NUM = N)
    (hL : 1 ≤ L) :
    ∃ c : Nat, (c : Int) = (N - 1) * L ∧
      (main ops env).final.live = List.range' 0 (3 * (c - 1)) := by
  have hN := parse_VEC_NUM env
  rw [hNUM] at hN
  obtain ⟨s, c, hs, hc, ⟨d, v, hs1, -, -⟩, -, -, -, hlive, -, hhandles⟩ :=
    healthy_run ops env hh (by rw [hLEN]; omega)
  obtain ⟨-, rlv, rfr, -⟩ := ready_fields env
  have e1 : (initInput ops (ready env)).live = [] := by rw [hs1]; exact rlv
  have e4 : (initInput ops (ready env)).fresh = 0 := by rw [hs1]; exact rfr
  have hcL : (c : Int) = (N - 1) * L := by
    rw [hc]
    show ((parseOptions env (initial env)).VEC_NUM - 1) * (parseOptions env (initial env)).VEC_LEN
      = _
    rw [hLEN, hNUM]
  have hpos : 0 < c := by
    have : (0 : Int) < (N - 1) * L := Int.mul_pos (by omega) (by omega)
    have : (0 : Int) < (c : Int) := by omega
    exact_mod_cast this
  obtain ⟨hA, hB, hR⟩ := hhandles hpos
  rw [e4] at hA hB hR
  rw [e1, e4] at hlive
  refine ⟨c, hcL, ?_⟩
  rw [main_of_compute ops env s hs]
  show (cleanup _).live = _
  obtain ⟨n, rfl⟩ : ∃ n, c = n + 1 := ⟨c - 1, by omega⟩
  rw [cleanup_live _ (3 * n) (3 * n + 1) (3 * n + 2)
    (by show s.d_dataA = _; rw [hA]; congr 1; omega)
    (by show s.d_dataB = _; rw [hB]; congr 1; omega)
    (by show s.d_res = _; rw [hR]; congr 1; omega)]
  show ((List.erase s.live _).erase _).erase _ = _
  rw [hlive, List.nil_append, erase_last_three]
  rfl

/-- C8. What the code does where the claim asks for no live device buffer
after `cleanup`: on `--vec-len 2 --vec-num 2` the buffers 0, 1 and 2 of the first
pass are still live when `main` returns, and with the default sizes 189 of the
192 buffers created are. -/
theorem cleanup_leaves_buffers_live :
    smallRun.final.live = [0, 1, 2] ∧ defaultRun.final.live.length = 189 := by
  refine ⟨by decide, ?_⟩
  obtain ⟨c, hc, hlive⟩ := main_live_buffers intOps (goodEnv none none 0) 64 2
    (goodEnv_healthy _ _ _) rfl rfl (by decide)
  have : c = 64 := by omega
  subst this
  show (main intOps (goodEnv none none 0)).final.live.length = 189
  rw [hlive]
  simp

end VectorSum
